import Mathlib

/-!
Shallow embedding of the balance-ledger / idempotency / job-queue core of the
airdrop-empire-bot backend (files src/lib/ledger.js, lib/db.js, lib/idempotency.js,
lib/jobs.js, lib/jobHandlers.js, worker.js and the withdraw endpoints of index.js).

Database tables are modelled as Lean lists of row structures inside one `DbState`;
a SQL UPDATE is a conditional `List.map`, an INSERT is an append, a SELECT is
`List.find?` or `List.filter`.  A JavaScript `throw` is `Except.error`; the
`withTransaction` helper of lib/db.js (BEGIN / COMMIT / ROLLBACK) becomes a
combinator that keeps the new state on success and restores the initial state on
error.  JavaScript numbers that are validated with `Number.isInteger` are
modelled as rationals (`Rat`), with integrality expressed as `den = 1`.
-/

namespace AirdropBot

/-- A row of `public.users` (only the columns the ledger core touches). -/
structure UserRow where
  id : Nat
  balance : Int
  deriving DecidableEq, Repr

/-- A row of `public.user_balance_ledger`. -/
structure LedgerRow where
  id : Nat
  userId : Nat
  delta : Int
  reason : String
  refType : Option String
  refId : Option Nat
  eventType : Option String
  deriving DecidableEq, Repr

/-- A row of `public.idempotency_keys`.  `response` is the serialized response
JSON (`null` until completed). -/
structure IdemRow where
  userId : Option Nat
  endpoint : String
  requestId : String
  context : String
  status : String
  response : Option String
  deriving DecidableEq, Repr

/-- A row of `public.withdraw_requests` (only the columns the withdraw flow touches). -/
structure WithdrawRow where
  id : Nat
  userId : Nat
  amount : Int
  wallet : String
  status : String
  deriving DecidableEq, Repr

/-- A row of `public.jobs`.  `runAt` is an abstract timestamp (Nat). -/
structure JobRow where
  id : Nat
  type : String
  payload : String
  status : String
  runAt : Nat
  attempts : Nat
  lastError : Option String
  deriving DecidableEq, Repr

/-- The database state: every table the modelled code touches, plus the
next value of each serial primary-key sequence. -/
structure DbState where
  users : List UserRow
  ledger : List LedgerRow
  nextLedgerId : Nat
  idemKeys : List IdemRow
  withdrawRequests : List WithdrawRow
  nextWithdrawId : Nat
  jobs : List JobRow
  nextJobId : Nat
  deriving DecidableEq, Repr

/-- The error kinds thrown by the embedded code: `validationError` for the
synchronous input checks (a plain `throw new Error(...)` before any query),
`userNotFound` for the rowCount check in applyBalanceChangeTx, `storeError`
for a failure of the underlying store (e.g. the simulated jobs-table outage). -/
inductive DbError where
  | validationError (msg : String)
  | userNotFound (id : Nat)
  | storeError (msg : String)
  deriving DecidableEq, Repr

instance {ε α : Type} [DecidableEq ε] [DecidableEq α] : DecidableEq (Except ε α) := fun x y =>
  match x, y with
  | Except.ok a, Except.ok b =>
      if h : a = b then isTrue (by rw [h]) else isFalse (by simp [h])
  | Except.error e, Except.error f =>
      if h : e = f then isTrue (by rw [h]) else isFalse (by simp [h])
  | Except.ok _, Except.error _ => isFalse (by simp)
  | Except.error _, Except.ok _ => isFalse (by simp)

/-- `withTransaction` from lib/db.js: BEGIN, run the body, COMMIT on success
(keeping the body's writes), ROLLBACK on error (restoring the initial state)
and re-throw the error. -/
def withTransaction (st : DbState) (f : DbState → Except DbError (DbState × α)) :
    DbState × Except DbError α :=
  match f st with
  | Except.ok (st', a) => (st', Except.ok a)
  | Except.error e => (st, Except.error e)

/-- The argument record of `applyBalanceChange` / `applyBalanceChangeTx`.
`delta` is a JavaScript number, modelled as a rational; `Number.isInteger delta`
is `delta.den = 1`.  `userId` is a JavaScript number, where the code's
truthiness check `!userId` corresponds to `userId = 0`. -/
structure ApplyArgs where
  userId : Nat
  delta : Rat
  reason : String
  refType : Option String
  refId : Option Nat
  eventType : Option String
  deriving DecidableEq, Repr

/-- The result of a successful `applyBalanceChange`: the updated user row and
the id of the freshly inserted ledger row. -/
structure ApplyOk where
  user : UserRow
  ledgerId : Nat
  deriving DecidableEq, Repr

/-- JavaScript integer coerced into the rational model of JS numbers. -/
def jsInt (n : Int) : Rat := (n : Rat)

/-- The user_balance_ledger row the INSERT of applyBalanceChangeTx creates:
the serial id, then (user_id, delta, reason, ref_type, ref_id, event_type). -/
def newLedgerRow (st : DbState) (a : ApplyArgs) : LedgerRow :=
  ⟨st.nextLedgerId, a.userId, a.delta.num, a.reason, a.refType, a.refId, a.eventType⟩

/-- One row of the `UPDATE users SET balance = balance + delta WHERE id = userId`:
rows of other users are untouched. -/
def bumpBalance (a : ApplyArgs) (u : UserRow) : UserRow :=
  if u.id = a.userId then { u with balance := u.balance + a.delta.num } else u

/-- The state after the ledger INSERT of applyBalanceChangeTx (step 1 of the
transaction body). -/
def applyLedgerInsert (st : DbState) (a : ApplyArgs) : DbState :=
  { st with ledger := st.ledger ++ [newLedgerRow st a], nextLedgerId := st.nextLedgerId + 1 }

/-- `applyBalanceChangeTx(client, args)` from src/lib/ledger.js (lines 94-141),
assuming a transaction is already open.  In order:
synchronous validation (`Number.isInteger(delta)`, `!userId`, `!reason`),
INSERT into user_balance_ledger RETURNING id,
UPDATE users SET balance = balance + delta WHERE id = userId RETURNING *,
throw "user not found" when rowCount is zero, otherwise return the first
updated row together with the new ledger id. -/
def applyBalanceChangeTx (st : DbState) (a : ApplyArgs) :
    Except DbError (DbState × ApplyOk) :=
  if ¬ a.delta.den = 1 then
    Except.error (DbError.validationError "applyBalanceChange: delta must be an integer (minor units)")
  else if a.userId = 0 then
    Except.error (DbError.validationError "applyBalanceChange: userId is required")
  else if a.reason = "" then
    Except.error (DbError.validationError "applyBalanceChange: reason is required")
  else
    let st1 : DbState := applyLedgerInsert st a
    let newUsers : List UserRow := st1.users.map (bumpBalance a)
    match newUsers.find? (fun u => u.id == a.userId) with
    | none => Except.error (DbError.userNotFound a.userId)
    | some u => Except.ok ({ st1 with users := newUsers }, ⟨u, (newLedgerRow st a).id⟩)

/-- `applyBalanceChange(args)` from src/lib/ledger.js (lines 143-149): the
convenience wrapper that opens its own transaction and delegates to
`applyBalanceChangeTx`; on any error the transaction is rolled back. -/
def applyBalanceChange (st : DbState) (a : ApplyArgs) : DbState × Except DbError ApplyOk :=
  withTransaction st (fun s => applyBalanceChangeTx s a)

/-- The database state after a sequence of `applyBalanceChange` calls, each in
its own transaction; a failed call leaves the state unchanged (rollback). -/
def applySeq (st : DbState) (calls : List ApplyArgs) : DbState :=
  calls.foldl (fun s a => (applyBalanceChange s a).1) st

/-- `SELECT COALESCE(SUM(delta),0) FROM user_balance_ledger WHERE user_id = uid`:
the sum of the deltas of all ledger entries of one account. -/
def ledgerSum (st : DbState) (uid : Nat) : Int :=
  ((st.ledger.filter fun r => r.userId == uid).map fun r => r.delta).sum

/-- The per-account invariant of the spec: every users row of this account has
`balance` equal to the sum of the deltas of the account's ledger entries. -/
def accountMatchesLedger (st : DbState) (uid : Nat) : Prop :=
  ∀ u ∈ st.users, u.id = uid → u.balance = ledgerSum st uid

instance (st : DbState) (uid : Nat) : Decidable (accountMatchesLedger st uid) := by
  unfold accountMatchesLedger; infer_instance

/-! ## Idempotency store (lib/idempotency.js, src/unnamed/part_000) -/

/-- The WHERE clause shared by both idempotency queries: match on the natural
key (endpoint, request_id, context). -/
def idemKeyMatches (r : IdemRow) (endpoint requestId ctx : String) : Bool :=
  r.endpoint == endpoint && r.requestId == requestId && r.context == ctx

/-- `SELECT * FROM idempotency_keys WHERE endpoint AND request_id AND context`:
the first row matching the natural key. -/
def findIdemRow (st : DbState) (endpoint requestId ctx : String) : Option IdemRow :=
  st.idemKeys.find? fun r => idemKeyMatches r endpoint requestId ctx

/-- The argument record of `ensureIdempotencyKeyTx`.  The JS default
`context = ""` is the caller passing `""`; `userId` is optional. -/
structure EnsureArgs where
  userId : Option Nat
  endpoint : String
  requestId : String
  context : String
  deriving DecidableEq, Repr

/-- `userId || null` from the INSERT of ensureIdempotencyKeyTx: a falsy
user id (0 in the numeric model) is stored as NULL. -/
def jsUserIdOrNull (u : Option Nat) : Option Nat :=
  match u with
  | some 0 => none
  | x => x

/-- The row the INSERT of ensureIdempotencyKeyTx creates: status 'pending',
response NULL. -/
def pendingIdemRow (a : EnsureArgs) : IdemRow :=
  ⟨jsUserIdOrNull a.userId, a.endpoint, a.requestId, a.context, "pending", none⟩

/-- `ensureIdempotencyKeyTx(client, args)` from lib/idempotency.js (lines 10-52):
validate that endpoint and requestId are truthy, SELECT the row by natural key
FOR UPDATE and return it when present, otherwise INSERT a new row with status
'pending' and return it.  Must run inside a caller-supplied transaction. -/
def ensureIdempotencyKeyTx (st : DbState) (a : EnsureArgs) :
    Except DbError (DbState × IdemRow) :=
  if a.endpoint = "" ∨ a.requestId = "" then
    Except.error (DbError.validationError "ensureIdempotencyKeyTx: endpoint and requestId are required")
  else
    match findIdemRow st a.endpoint a.requestId a.context with
    | some row => Except.ok (st, row)
    | none =>
        Except.ok ({ st with idemKeys := st.idemKeys ++ [pendingIdemRow a] }, pendingIdemRow a)

/-- The argument record of `completeIdempotencyKeyTx`.  `responsePayload` is the
serialized response (`none` models the JS `undefined`, which is stored as NULL);
`status` defaults to "completed" at every call site in the repository. -/
structure CompleteArgs where
  endpoint : String
  requestId : String
  context : String
  responsePayload : Option String
  status : String
  deriving DecidableEq, Repr

/-- One row of the UPDATE of completeIdempotencyKeyTx: a row matching the
natural key gets the new status and response, any other row is untouched. -/
def completeUpd (a : CompleteArgs) (r : IdemRow) : IdemRow :=
  if idemKeyMatches r a.endpoint a.requestId a.context then
    { r with status := a.status, response := a.responsePayload }
  else r

/-- `completeIdempotencyKeyTx(client, args)` from lib/idempotency.js (lines 58-88):
validate endpoint and requestId, then
`UPDATE idempotency_keys SET status, response, updated_at WHERE natural key RETURNING *`;
returns the first updated row, or `none` when no row matched (`rows[0] || null`). -/
def completeIdempotencyKeyTx (st : DbState) (a : CompleteArgs) :
    Except DbError (DbState × Option IdemRow) :=
  if a.endpoint = "" ∨ a.requestId = "" then
    Except.error (DbError.validationError "completeIdempotencyKeyTx: endpoint and requestId are required")
  else
    let newKeys : List IdemRow := st.idemKeys.map (completeUpd a)
    let returned : Option IdemRow :=
      newKeys.find? fun r => idemKeyMatches r a.endpoint a.requestId a.context
    Except.ok ({ st with idemKeys := newKeys }, returned)

/-- The status of the row stored under a natural key, if any. -/
def keyStatus (st : DbState) (endpoint requestId ctx : String) : Option String :=
  (findIdemRow st endpoint requestId ctx).map IdemRow.status

/-- At most one idempotency_keys row per natural key (the uniqueness the
`ON CONFLICT (endpoint, request_id, context)` constraint enforces). -/
def uniqueIdemKeys (st : DbState) : Prop :=
  st.idemKeys.Pairwise fun r1 r2 =>
    ¬ (r1.endpoint = r2.endpoint ∧ r1.requestId = r2.requestId ∧ r1.context = r2.context)

/-- One call against the idempotency store, with the arguments the caller
chose; used to quantify over arbitrary sequences of calls. -/
inductive IdemOp where
  | ensure (a : EnsureArgs)
  | complete (a : CompleteArgs)
  deriving DecidableEq, Repr

/-- Run one idempotency operation in its own transaction: on error the
transaction rolls back and the state is unchanged. -/
def stepIdem (st : DbState) (op : IdemOp) : DbState :=
  match op with
  | IdemOp.ensure a =>
      match ensureIdempotencyKeyTx st a with
      | Except.ok (st', _) => st'
      | Except.error _ => st
  | IdemOp.complete a =>
      match completeIdempotencyKeyTx st a with
      | Except.ok (st', _) => st'
      | Except.error _ => st

/-- Run a sequence of idempotency operations. -/
def runIdemOps (st : DbState) (ops : List IdemOp) : DbState :=
  ops.foldl stepIdem st

/-! ## Withdraw request flow (index.js, src/unnamed/part_009 lines 4247-4294) -/

/-- The natural-key request id of /api/withdraw/request: the template literal
computing the composite request id from user id, amount and wallet. -/
def withdrawRequestKey (uid : Nat) (amount : Int) (wallet : String) : String :=
  toString uid ++ ":" ++ toString amount ++ ":" ++ wallet

/-- JavaScript truthiness of the nullable `response` column: NULL and the
empty string are falsy, every other string is truthy. -/
def jsTruthy (s : Option String) : Bool :=
  match s with
  | some v => v != ""
  | none => false

/-- Models `JSON.stringify(responsePayload)` for the withdraw response object
`ok:true, request: wrRow` (an injective flat encoding; the exact JSON shape is
irrelevant to the claims, only that the stored string is returned verbatim). -/
def encodeWithdrawResponse (wr : WithdrawRow) : String :=
  "ok:true;request:" ++ toString wr.id ++ "," ++ toString wr.userId ++ ","
    ++ toString wr.amount ++ "," ++ wr.wallet ++ "," ++ wr.status

/-- The transaction body of POST /api/withdraw/request (part_009 lines 4247-4293):
`ensureIdempotencyKeyTx`; if the key row is completed with a truthy stored
response, return that stored response; otherwise INSERT the withdraw_requests
row (status 'pending'), reserve the funds via `applyBalanceChangeTx` with
delta = -amount and reason "withdraw_reserve", store the serialized response via
`completeIdempotencyKeyTx`, and return it. -/
def withdrawRequestTxBody (uid : Nat) (amount : Int) (wallet : String) (s : DbState) :
    Except DbError (DbState × String) := do
  let rid := withdrawRequestKey uid amount wallet
  let (s1, idemRow) ← ensureIdempotencyKeyTx s ⟨some uid, "/api/withdraw/request", rid, "withdraw"⟩
  if idemRow.status = "completed" ∧ jsTruthy idemRow.response then
    Except.ok (s1, idemRow.response.getD "")
  else
    let wrRow : WithdrawRow := ⟨s1.nextWithdrawId, uid, amount, wallet, "pending"⟩
    let s2 : DbState :=
      { s1 with withdrawRequests := s1.withdrawRequests ++ [wrRow],
                nextWithdrawId := s1.nextWithdrawId + 1 }
    let (s3, _) ← applyBalanceChangeTx s2
      ⟨uid, jsInt (-amount), "withdraw_reserve", some "withdraw_request", some wrRow.id,
        some "withdraw_reserve"⟩
    let payload := encodeWithdrawResponse wrRow
    let (s4, _) ← completeIdempotencyKeyTx s3
      ⟨"/api/withdraw/request", rid, "withdraw", some payload, "completed"⟩
    Except.ok (s4, payload)

/-- POST /api/withdraw/request, the idempotency-guarded part: the transaction
body run under `withTransaction` (rollback on any error). -/
def withdrawRequestTx (st : DbState) (uid : Nat) (amount : Int) (wallet : String) :
    DbState × Except DbError String :=
  withTransaction st (withdrawRequestTxBody uid amount wallet)

/-! ## Job queue (lib/jobs.js, src/unnamed/part_001) -/

/-- The bare `INSERT INTO public.jobs ... RETURNING id` of enqueueJob, on the
shared pool connection (auto-commit, outside any caller transaction).
`storeAvailable = false` models the simulated store outage (jobs table missing
or unavailable), in which case the query throws. -/
def insertJobRow (st : DbState) (storeAvailable : Bool) (type payload : String)
    (runAt : Nat) : Except DbError (DbState × Nat) :=
  if storeAvailable then
    let row : JobRow := ⟨st.nextJobId, type, payload, "pending", runAt, 0, none⟩
    Except.ok ({ st with jobs := st.jobs ++ [row], nextJobId := st.nextJobId + 1 }, row.id)
  else
    Except.error (DbError.storeError "jobs table unavailable")

/-- `enqueueJob(type, payload, options)` from lib/jobs.js (lines 27-45): run the
INSERT inside try/catch; on success return the new id, on any insert failure
log and return null (never re-throw).  It uses the pool, not a caller-supplied
client, so it participates in no caller transaction. -/
def enqueueJob (st : DbState) (storeAvailable : Bool) (type payload : String)
    (runAt : Nat) : DbState × Option Nat :=
  match insertJobRow st storeAvailable type payload runAt with
  | Except.ok (st', id) => (st', some id)
  | Except.error _ => (st, none)

/-! ## Worker (worker.js) -/

/-- `SELECT * FROM jobs WHERE id = jobId` (first row). -/
def findJob (st : DbState) (jobId : Nat) : Option JobRow :=
  st.jobs.find? fun j => j.id == jobId

/-- `UPDATE jobs SET ... WHERE id = jobId` applied to every matching row. -/
def updateJobs (st : DbState) (jobId : Nat) (f : JobRow → JobRow) : DbState :=
  { st with jobs := st.jobs.map fun j => if j.id = jobId then f j else j }

/-- The status of the job stored under an id, if any. -/
def jobStatus (st : DbState) (jobId : Nat) : Option String :=
  (findJob st jobId).map JobRow.status

/-- The attempts counter of the job stored under an id, if any. -/
def jobAttempts (st : DbState) (jobId : Nat) : Option Nat :=
  (findJob st jobId).map JobRow.attempts

/-- `ORDER BY run_at ASC ... LIMIT 1`: the first row with minimal run_at. -/
def pickMinRunAt (l : List JobRow) : Option JobRow :=
  l.foldl (fun best j =>
    match best with
    | none => some j
    | some b => if j.runAt < b.runAt then some j else best) none

/-- `fetchAndLockNextJob(client)` from worker.js (lines 17-30):
`SELECT * FROM jobs WHERE status = 'pending' AND run_at <= NOW()
 ORDER BY run_at ASC FOR UPDATE SKIP LOCKED LIMIT 1`.
`locked` is the set of job ids whose rows are currently row-locked by some
other open transaction; SKIP LOCKED skips those.  The returned row becomes
row-locked by the calling transaction until that transaction commits or
rolls back. -/
def fetchAndLockNextJob (st : DbState) (locked : List Nat) (now : Nat) : Option JobRow :=
  pickMinRunAt (st.jobs.filter fun j =>
    j.status == "pending" && decide (j.runAt ≤ now) && !(locked.contains j.id))

/-- The observable outcome of one iteration of the claim phase of `workerLoop`
(worker.js lines 97-118): which job the worker got, which rows its fetch
transaction held locked between the SELECT ... FOR UPDATE and the COMMIT,
and which rows remain locked once the COMMIT at worker.js line 104/109 has
released the transaction's locks. -/
structure PollOutcome where
  job : Option JobRow
  locksDuringTx : List Nat
  locksAfterCommit : List Nat
  deriving DecidableEq, Repr

/-- One claim-phase iteration of `workerLoop` (worker.js lines 97-118):
BEGIN; `fetchAndLockNextJob` (locking the returned row); COMMIT.  The COMMIT
releases every lock the transaction acquired, so after this step the lock set
is back to `locked` even when a job was fetched — `processJob` then runs in a
fresh transaction with no lock held on the job row, which at that point still
has status 'pending'. -/
def workerPollStep (st : DbState) (locked : List Nat) (now : Nat) : PollOutcome :=
  match fetchAndLockNextJob st locked now with
  | none => ⟨none, locked, locked⟩
  | some j => ⟨some j, j.id :: locked, locked⟩

/-- `errorMessage ? String(errorMessage).slice(0, 500) : null` from
markJobStatus: a falsy (empty) message becomes NULL, otherwise the first 500
characters are kept. -/
def jsErrText (errMsg : Option String) : Option String :=
  match errMsg with
  | some m => if m = "" then none else some (m.take 500)
  | none => none

/-- `markJobStatus(client, jobId, status, errorMessage)` from worker.js
(lines 32-44). -/
def markJobStatus (st : DbState) (jobId : Nat) (status : String)
    (errMsg : Option String) : DbState :=
  updateJobs st jobId fun j => { j with status := status, lastError := jsErrText errMsg }

/-- `incrementAttempts(client, jobId)` from worker.js (lines 46-56):
`UPDATE jobs SET attempts = attempts + 1 WHERE id = jobId`. -/
def incrementAttempts (st : DbState) (jobId : Nat) : DbState :=
  updateJobs st jobId fun j => { j with attempts := j.attempts + 1 }

/-- What one invocation of `runJobHandler(client, job)` does: either it returns
normally with the writes it performed, or it throws an error carrying the
state as written up to the throw (the catch in processJob runs in the same
still-open transaction, so those writes persist), together with the error's
`permanent` field and whether it is an `instanceof NonRetryableJobError`
(whose constructor in lib/jobHandlers.js sets `permanent = true`), and its
message. -/
inductive HandlerOutcome where
  | success (st : DbState)
  | failure (st : DbState) (permanentField : Bool) (isNonRetryableKind : Bool) (message : String)
  deriving DecidableEq, Repr

/-- `processJob(job)` from worker.js (lines 59-90), parametric in the handler
behaviour.  Inside one `withTransaction`: `incrementAttempts`; run the handler;
on success mark the job 'completed'; on a thrown error re-read the job's
attempts (`rows[0]?.attempts || 0`), compute
`isPermanent = err.permanent === true || err instanceof NonRetryableJobError`
and set the status to 'failed' when permanent or attempts >= MAX_ATTEMPTS,
else 'pending'.  The body catches every handler error, so the transaction
always commits. -/
def processJob (st : DbState) (job : JobRow)
    (handler : DbState → JobRow → HandlerOutcome) (maxAttempts : Nat) : DbState :=
  let st1 := incrementAttempts st job.id
  match handler st1 job with
  | HandlerOutcome.success st2 => markJobStatus st2 job.id "completed" none
  | HandlerOutcome.failure st2 permanentField isNonRetryableKind msg =>
      let attempts := ((findJob st2 job.id).map JobRow.attempts).getD 0
      let isPermanent := permanentField || isNonRetryableKind
      let finalStatus :=
        if isPermanent || decide (attempts ≥ maxAttempts) then "failed" else "pending"
      markJobStatus st2 job.id finalStatus (some msg)

/-- The database state that survives when the worker process crashes inside a
transaction before its COMMIT (e.g. mid-handler inside `processJob`): the
server rolls the open transaction back, so every write the body performed
before the crash — `writesBeforeCrash` — is discarded and the persisted state
is the state from before BEGIN. -/
def persistedAfterCrashedTx (st : DbState) (writesBeforeCrash : DbState → DbState) :
    DbState :=
  st

/-! ## Concrete states and arguments used by witnesses and counterexamples -/

/-- A state with one account (id 1, balance 5) whose balance matches its single
ledger entry. -/
def stW1 : DbState :=
  ⟨[⟨1, 5⟩], [⟨1, 1, 5, "tap_reward", none, none, none⟩], 2, [], [], 1, [], 1⟩

/-- Three balance changes: a credit to account 1, a credit to the nonexistent
account 2 (which fails and rolls back), and a debit to account 1. -/
def callsW1 : List ApplyArgs :=
  [⟨1, (3 : Rat), "mission_reward", some "mission", some 4, some "mission_reward"⟩,
   ⟨2, (4 : Rat), "tap_reward", none, none, none⟩,
   ⟨1, (-2 : Rat), "withdraw_reserve", some "withdraw_request", some 7, some "withdraw_reserve"⟩]

/-- delta = 0: an integer, but not a nonzero one. -/
def zeroDeltaArgs : ApplyArgs := ⟨1, (0 : Rat), "adjust", none, none, none⟩

/-- A call on account 2, which does not exist in `stW1`. -/
def missingAccountArgs : ApplyArgs := ⟨2, (7 : Rat), "tap_reward", none, none, none⟩

/-- delta = 1/2: not an integer, so validation rejects it. -/
def halfDeltaArgs : ApplyArgs := ⟨1, mkRat 1 2, "adjust", none, none, none⟩

/-- A completed idempotency-key row of the withdraw endpoint for user 1,
amount 400, wallet "w1", with a stored response. -/
def idemRowW : IdemRow :=
  ⟨some 1, "/api/withdraw/request", withdrawRequestKey 1 400 "w1", "withdraw",
    "completed", some "stored-response"⟩

/-- A state holding `idemRowW` and the matching account. -/
def stIdemW : DbState :=
  ⟨[⟨1, 500⟩], [⟨1, 1, 500, "tap_reward", none, none, none⟩], 2, [idemRowW], [], 1, [], 1⟩

/-- A state whose only idempotency-key row is already completed. -/
def stIdemC : DbState :=
  ⟨[], [], 1, [⟨some 1, "/api/boost/completeAd", "r1", "", "completed", some "resp"⟩],
    [], 1, [], 1⟩

/-- A completeIdempotencyKeyTx call that passes status "pending" for the key
of `stIdemC`. -/
def regressArgs : CompleteArgs := ⟨"/api/boost/completeAd", "r1", "", some "resp", "pending"⟩

/-- A sequence of idempotency calls touching the key of `stIdemC` and another
key, with statuses drawn from those the repository passes. -/
def idemOpsW : List IdemOp :=
  [IdemOp.ensure ⟨some 2, "/api/withdraw/request", "k2", "withdraw"⟩,
   IdemOp.complete ⟨"/api/boost/completeAd", "r1", "", some "resp2", "failed"⟩,
   IdemOp.ensure ⟨some 1, "/api/boost/completeAd", "r1", ""⟩]

/-- One pending job due immediately. -/
def jobW : JobRow := ⟨1, "withdraw_payout", "payload", "pending", 0, 0, none⟩

/-- A state whose jobs table holds only `jobW`. -/
def stJobW : DbState := ⟨[], [], 1, [], [], 1, [jobW], 2⟩

/-- A handler that returns normally without writing. -/
def handlerOk : DbState → JobRow → HandlerOutcome := fun s _ => HandlerOutcome.success s

/-- A handler that throws a generic (transient) error. -/
def handlerFailTransient : DbState → JobRow → HandlerOutcome :=
  fun s _ => HandlerOutcome.failure s false false "provider timeout"

/-- A handler that throws a NonRetryableJobError (whose constructor also sets
permanent = true). -/
def handlerFailPermanent : DbState → JobRow → HandlerOutcome :=
  fun s _ => HandlerOutcome.failure s true true "sync_user job missing user_id"

/-- A handler that observes the attempts counter of its job inside the open
transaction: it succeeds exactly when the counter it reads equals `expected`. -/
def probeAttempts (expected : Nat) : DbState → JobRow → HandlerOutcome := fun s j =>
  if jobAttempts s j.id = some expected then HandlerOutcome.success s
  else HandlerOutcome.failure s false false "unexpected attempts"

/-! ## Helper lemmas -/

theorem find?_map_of_pred_pres {α : Type} (l : List α) (p : α → Bool) (g : α → α)
    (h : ∀ a, p (g a) = p a) : (l.map g).find? p = (l.find? p).map g := by
  rw [List.find?_map]
  have hpg : (p ∘ g) = p := funext h
  rw [hpg]

theorem ledgerSum_of_ledger_append (st st' : DbState) (row : LedgerRow) (uid : Nat)
    (h : st'.ledger = st.ledger ++ [row]) :
    ledgerSum st' uid = ledgerSum st uid + (if row.userId = uid then row.delta else 0) := by
  unfold ledgerSum
  rw [h, List.filter_append, List.map_append, List.sum_append]
  by_cases hrow : row.userId = uid
  · simp [hrow]
  · simp [hrow]

theorem applyBalanceChange_fst_error (st : DbState) (a : ApplyArgs) (e : DbError)
    (htx : applyBalanceChangeTx st a = Except.error e) : (applyBalanceChange st a).1 = st := by
  simp [applyBalanceChange, withTransaction, htx]

theorem applyBalanceChange_fst_ok (st : DbState) (a : ApplyArgs) (p : DbState × ApplyOk)
    (htx : applyBalanceChangeTx st a = Except.ok p) : (applyBalanceChange st a).1 = p.1 := by
  simp [applyBalanceChange, withTransaction, htx]

theorem applyBalanceChangeTx_ok_state (st : DbState) (a : ApplyArgs) (p : DbState × ApplyOk)
    (htx : applyBalanceChangeTx st a = Except.ok p) :
    p.1 = { applyLedgerInsert st a with
            users := (applyLedgerInsert st a).users.map (bumpBalance a) } := by
  simp only [applyBalanceChangeTx] at htx
  split at htx
  · simp at htx
  · split at htx
    · simp at htx
    · split at htx
      · simp at htx
      · split at htx
        · simp at htx
        · simp only [Except.ok.injEq] at htx
          rw [← htx]

theorem accountMatchesLedger_step (st : DbState) (a : ApplyArgs) (uid : Nat)
    (h : accountMatchesLedger st uid) :
    accountMatchesLedger (applyBalanceChange st a).1 uid := by
  cases htx : applyBalanceChangeTx st a with
  | error e => rw [applyBalanceChange_fst_error st a e htx]; exact h
  | ok p =>
      rw [applyBalanceChange_fst_ok st a p htx]
      have hst := applyBalanceChangeTx_ok_state st a p htx
      have hledger : p.1.ledger = st.ledger ++ [newLedgerRow st a] := by
        rw [hst]; rfl
      have husers : p.1.users = st.users.map (bumpBalance a) := by
        rw [hst]; rfl
      have hsum := ledgerSum_of_ledger_append st p.1 (newLedgerRow st a) uid hledger
      intro u' hu' hid
      rw [husers] at hu'
      rw [List.mem_map] at hu'
      obtain ⟨v, hv, hgv⟩ := hu'
      rw [hsum]
      simp only [newLedgerRow]
      by_cases hvid : v.id = a.userId
      · have hbump : u' = { v with balance := v.balance + a.delta.num } := by
          rw [← hgv]; simp [bumpBalance, hvid]
        have hviduid : v.id = uid := by rw [hbump] at hid; exact hid
        have huid : a.userId = uid := by rw [← hvid]; exact hviduid
        rw [if_pos huid, hbump]
        have hb := h v hv hviduid
        simp [hb]
      · have hbump : u' = v := by rw [← hgv]; simp [bumpBalance, hvid]
        rw [hbump] at hid
        have hne : ¬ (a.userId = uid) := by
          intro hc
          exact hvid (by rw [hid, hc])
        rw [if_neg hne, add_zero, hbump]
        exact h v hv hid

/-! ## Claim theorems -/

/-- Claim C1: for every account and every sequence of applyBalanceChange calls
starting from a state in which the account's balance equals the sum of its
ledger entries' deltas, the account's balance afterwards still equals the sum
of the deltas of all its ledger entries; every successful call inserts exactly
one ledger row with delta d and adds the same d to the cached balance, and a
failed call rolls back entirely, so the invariant is preserved by every call. -/
theorem ledger_balance_invariant (st : DbState) (uid : Nat) (calls : List ApplyArgs)
    (h : accountMatchesLedger st uid) :
    accountMatchesLedger (applySeq st calls) uid := by
  induction calls generalizing st with
  | nil => exact h
  | cons c cs ih =>
      simp only [applySeq, List.foldl_cons]
      exact ih _ (accountMatchesLedger_step st c uid h)

/-- Witness for C1: a concrete account and a concrete sequence of calls
(two successful ones and one that fails on a missing account). -/
theorem ledger_balance_invariant_witness :
    accountMatchesLedger stW1 1 ∧ accountMatchesLedger (applySeq stW1 callsW1) 1 :=
  ⟨by decide, ledger_balance_invariant stW1 1 callsW1 (by decide)⟩

theorem bumpBalance_id (a : ApplyArgs) (u : UserRow) : (bumpBalance a u).id = u.id := by
  unfold bumpBalance; split <;> rfl

/-- Claim C3: calling applyBalanceChange (with otherwise valid inputs) on an
account id that has no users row fails with the not-found error and the
transaction rolls back: the returned state is exactly the initial state, so
the ledger entry inserted inside the transaction does not survive and no
balance changes. -/
theorem applyBalanceChange_missing_account_rolls_back (st : DbState) (a : ApplyArgs)
    (hden : a.delta.den = 1) (hid : ¬ a.userId = 0) (hr : ¬ a.reason = "")
    (habs : ∀ u ∈ st.users, ¬ u.id = a.userId) :
    applyBalanceChange st a = (st, Except.error (DbError.userNotFound a.userId)) := by
  have hfind : ((applyLedgerInsert st a).users.map (bumpBalance a)).find?
      (fun u => u.id == a.userId) = none := by
    have husers : (applyLedgerInsert st a).users = st.users := rfl
    rw [husers, find?_map_of_pred_pres _ _ _ (fun u => by rw [bumpBalance_id])]
    rw [List.find?_eq_none.mpr (fun u hu => by simpa using habs u hu)]
    rfl
  have htx : applyBalanceChangeTx st a = Except.error (DbError.userNotFound a.userId) := by
    simp only [applyBalanceChangeTx, hfind]
    rw [if_neg (not_not_intro hden), if_neg hid, if_neg hr]
  simp [applyBalanceChange, withTransaction, htx]

/-- Witness for C3: account 2 does not exist in stW1; the call fails with
userNotFound 2 and the state is unchanged. -/
theorem applyBalanceChange_missing_account_rolls_back_witness :
    missingAccountArgs.delta.den = 1 ∧
    applyBalanceChange stW1 missingAccountArgs
      = (stW1, Except.error (DbError.userNotFound 2)) :=
  ⟨by decide,
   applyBalanceChange_missing_account_rolls_back stW1 missingAccountArgs
     (by decide) (by decide) (by decide) (by decide)⟩

/-- Claim C4 counterexample: delta = 0 is not a nonzero integer, yet the call
is not rejected: it succeeds and inserts a ledger row (with delta 0).  The
code only checks Number.isInteger(delta); there is no nonzero check. -/
theorem zero_delta_passes_validation :
    (applyBalanceChange stW1 zeroDeltaArgs).2 = Except.ok ⟨⟨1, 5⟩, 2⟩ ∧
    (applyBalanceChange stW1 zeroDeltaArgs).1.ledger.length = stW1.ledger.length + 1 := by
  decide

/-- Claim C4 amended: applyBalanceChange rejects synchronously (before any
write, with the state unchanged) exactly when delta is not an integer, or
accountId is empty (falsy), or reason is empty; when delta is any integer
(zero included) and accountId and reason are non-empty, validation does not
reject the call. -/
theorem applyBalanceChange_validation (st : DbState) (a : ApplyArgs) :
    ((¬ a.delta.den = 1 ∨ a.userId = 0 ∨ a.reason = "") →
      ∃ msg, applyBalanceChange st a = (st, Except.error (DbError.validationError msg))) ∧
    (a.delta.den = 1 → ¬ a.userId = 0 → ¬ a.reason = "" →
      ∀ msg, (applyBalanceChange st a).2 ≠ Except.error (DbError.validationError msg)) := by
  constructor
  · intro hbad
    by_cases h1 : a.delta.den = 1
    · by_cases h2 : a.userId = 0
      · exact ⟨"applyBalanceChange: userId is required",
          by simp [applyBalanceChange, withTransaction, applyBalanceChangeTx, h1, h2]⟩
      · have h3 : a.reason = "" := by
          rcases hbad with hb | hb | hb
          · exact absurd h1 hb
          · exact absurd hb h2
          · exact hb
        exact ⟨"applyBalanceChange: reason is required",
          by simp [applyBalanceChange, withTransaction, applyBalanceChangeTx, h1, h2, h3]⟩
    · exact ⟨"applyBalanceChange: delta must be an integer (minor units)",
        by simp [applyBalanceChange, withTransaction, applyBalanceChangeTx, h1]⟩
  · intro h1 h2 h3 msg
    cases hfind : ((applyLedgerInsert st a).users.map (bumpBalance a)).find?
        (fun u => u.id == a.userId) with
    | none =>
        simp [applyBalanceChange, withTransaction, applyBalanceChangeTx, h1, h2, h3, hfind]
    | some u =>
        simp [applyBalanceChange, withTransaction, applyBalanceChangeTx, h1, h2, h3, hfind]

/-- Witness for C4 amended: delta = 1/2 is rejected with the state unchanged;
delta = 0 with non-empty accountId and reason is not rejected by validation. -/
theorem applyBalanceChange_validation_witness :
    (∃ msg, applyBalanceChange stW1 halfDeltaArgs
        = (stW1, Except.error (DbError.validationError msg))) ∧
    (∀ msg, (applyBalanceChange stW1 zeroDeltaArgs).2
        ≠ Except.error (DbError.validationError msg)) :=
  ⟨(applyBalanceChange_validation stW1 halfDeltaArgs).1 (Or.inl (by decide)),
   (applyBalanceChange_validation stW1 zeroDeltaArgs).2 (by decide) (by decide) (by decide)⟩


theorem map_eq_self_of_no_match {α : Type} (l : List α) (p : α → Bool) (f : α → α)
    (h : ∀ x ∈ l, ¬ p x = true) : (l.map fun x => if p x then f x else x) = l := by
  induction l with
  | nil => rfl
  | cons x xs ih =>
      simp only [List.map_cons]
      rw [if_neg (by simpa using h x (List.mem_cons_self x xs))]
      rw [ih fun y hy => h y (List.mem_cons_of_mem x hy)]

/-- Claim C10: marking-complete on a natural key that matches no
idempotency_keys row (with the validation passing) is a silent no-op: the
UPDATE matches nothing, no row is created or modified, and the function
returns null rather than throwing. -/
theorem completeKey_unknown_key_noop (st : DbState) (a : CompleteArgs)
    (he : ¬ a.endpoint = "") (hr : ¬ a.requestId = "")
    (hfind : findIdemRow st a.endpoint a.requestId a.context = none) :
    completeIdempotencyKeyTx st a = Except.ok (st, none) := by
  have hnone : ∀ row ∈ st.idemKeys,
      ¬ idemKeyMatches row a.endpoint a.requestId a.context = true :=
    List.find?_eq_none.mp hfind
  have hmap : st.idemKeys.map (completeUpd a) = st.idemKeys :=
    map_eq_self_of_no_match st.idemKeys _ _ hnone
  simp only [completeIdempotencyKeyTx]
  rw [if_neg (not_or.mpr ⟨he, hr⟩), hmap]
  rw [show (st.idemKeys.find? fun r => idemKeyMatches r a.endpoint a.requestId a.context)
        = none from hfind]

/-- Witness for C10: completing an absent key on a concrete state returns
ok (state unchanged, null row). -/
theorem completeKey_unknown_key_noop_witness :
    completeIdempotencyKeyTx stW1
        ⟨"/api/withdraw/request", "k9", "withdraw", some "resp", "completed"⟩
      = Except.ok (stW1, none) :=
  completeKey_unknown_key_noop stW1 _ (by decide) (by decide) (by decide)

theorem findJob_updateJobs (st : DbState) (jobId : Nat) (f : JobRow → JobRow)
    (hf : ∀ j, (f j).id = j.id) :
    findJob (updateJobs st jobId f) jobId = (findJob st jobId).map f := by
  unfold findJob updateJobs
  rw [find?_map_of_pred_pres _ _ _ (fun j => by
    by_cases h : j.id = jobId
    · simp [h, hf]
    · simp [h])]
  cases hj : st.jobs.find? (fun j => j.id == jobId) with
  | none => rfl
  | some j0 =>
      have hid := List.find?_some hj
      simp only [Option.map]
      rw [if_pos (by simpa using hid)]

theorem jobStatus_markJobStatus (st : DbState) (jobId : Nat) (s : String) (e : Option String)
    (h : (findJob st jobId).isSome) :
    jobStatus (markJobStatus st jobId s e) jobId = some s := by
  unfold jobStatus markJobStatus
  rw [findJob_updateJobs st jobId
    (fun j => { j with status := s, lastError := jsErrText e }) (fun j => rfl)]
  obtain ⟨j0, hj0⟩ := Option.isSome_iff_exists.mp h
  rw [hj0]
  rfl

theorem jobAttempts_markJobStatus (st : DbState) (jobId : Nat) (s : String) (e : Option String) :
    jobAttempts (markJobStatus st jobId s e) jobId = jobAttempts st jobId := by
  unfold jobAttempts markJobStatus
  rw [findJob_updateJobs st jobId
    (fun j => { j with status := s, lastError := jsErrText e }) (fun j => rfl)]
  cases findJob st jobId <;> rfl

/-- Claim C9: when the underlying jobs INSERT fails, enqueueJob does not raise
(it is a total function into an Option result), returns the null identifier
with the store unchanged, and behaves as a no-op inside any caller transaction
(it runs on its own pool connection); when the INSERT succeeds it returns the
new pending job's id. -/
theorem enqueueJob_failure_returns_null (st : DbState) (type payload : String) (runAt : Nat) :
    enqueueJob st false type payload runAt = (st, none) ∧
    (enqueueJob st true type payload runAt).2 = some st.nextJobId ∧
    (enqueueJob st true type payload runAt).1.jobs
      = st.jobs ++ [⟨st.nextJobId, type, payload, "pending", runAt, 0, none⟩] ∧
    (∀ (α : Type) (cont : DbState → Option Nat → Except DbError (DbState × α)),
      withTransaction st
          (fun s => cont (enqueueJob s false type payload runAt).1
                         (enqueueJob s false type payload runAt).2)
        = withTransaction st (fun s => cont s none)) :=
  ⟨rfl, rfl, rfl, fun α cont => rfl⟩

/-- Claim C6 (demonstrating the code bug): the workerLoop claim phase COMMITs
its fetch transaction before processJob runs, releasing the FOR UPDATE lock
while the job is still pending, despite the comment at worker.js line 108
("We keep the row locked for this transaction").  With one pending job and two
workers, worker A's poll step claims the job and releases its lock; worker B's
poll step, run before A's processJob commits, claims the very same job: two
workers process the same job attempt concurrently.  The last conjunct shows
SKIP LOCKED would have prevented this had the lock still been held. -/
theorem worker_poll_both_workers_claim_same_job :
    (workerPollStep stJobW [] 0).job = some jobW ∧
    (workerPollStep stJobW (workerPollStep stJobW [] 0).locksAfterCommit 0).job = some jobW ∧
    jobStatus stJobW jobW.id = some "pending" ∧
    fetchAndLockNextJob stJobW (workerPollStep stJobW [] 0).locksDuringTx 0 = none := by
  decide

/-- Claim C7: after processJob, the job's status is completed when the handler
returned normally; failed when it threw an error with permanent === true or an
instanceof NonRetryableJobError, regardless of the attempt count; and on any
other error, pending when the attempts counter (as re-read inside the
transaction, i.e. after the increment) is below MAX_ATTEMPTS and failed once
it has reached MAX_ATTEMPTS. -/
theorem processJob_status_transitions (st : DbState) (job : JobRow)
    (handler : DbState → JobRow → HandlerOutcome) (maxAttempts : Nat) :
    (∀ st2, handler (incrementAttempts st job.id) job = HandlerOutcome.success st2 →
      (findJob st2 job.id).isSome = true →
      jobStatus (processJob st job handler maxAttempts) job.id = some "completed") ∧
    (∀ st2 pfield kind msg j2,
      handler (incrementAttempts st job.id) job
        = HandlerOutcome.failure st2 pfield kind msg →
      findJob st2 job.id = some j2 →
      jobStatus (processJob st job handler maxAttempts) job.id =
        some (if pfield || kind || decide (j2.attempts ≥ maxAttempts)
              then "failed" else "pending")) := by
  constructor
  · intro st2 hrun hsome
    simp only [processJob, hrun]
    exact jobStatus_markJobStatus st2 job.id "completed" none hsome
  · intro st2 pf k msg j2 hrun hj2
    simp only [processJob, hrun, hj2]
    exact jobStatus_markJobStatus st2 job.id _ _ (by rw [hj2]; rfl)

theorem processJob_status_transitions_witness :
    jobStatus (processJob stJobW jobW handlerOk 8) jobW.id = some "completed" ∧
    jobStatus (processJob stJobW jobW handlerFailPermanent 8) jobW.id = some "failed" ∧
    jobStatus (processJob stJobW jobW handlerFailTransient 8) jobW.id = some "pending" :=
  ⟨(processJob_status_transitions stJobW jobW handlerOk 8).1 _ rfl (by decide),
   (processJob_status_transitions stJobW jobW handlerFailPermanent 8).2 _ true true
      "sync_user job missing user_id" ⟨1, "withdraw_payout", "payload", "pending", 0, 1, none⟩
      rfl (by decide),
   (processJob_status_transitions stJobW jobW handlerFailTransient 8).2 _ false false
      "provider timeout" ⟨1, "withdraw_payout", "payload", "pending", 0, 1, none⟩
      rfl (by decide)⟩

/-- Claim C8 counterexample: the attempts increment happens inside the same
transaction as the handler, so when the worker crashes mid-handler the
transaction rolls back and the increment does NOT persist: starting from
attempts = 0, the persisted counter after the crash is 0, not 1 as the claim
asserts. -/
theorem crash_mid_handler_attempts_not_persisted :
    jobAttempts (persistedAfterCrashedTx stJobW (fun s => incrementAttempts s jobW.id)) jobW.id
      = some 0 ∧
    ¬ jobAttempts (persistedAfterCrashedTx stJobW (fun s => incrementAttempts s jobW.id)) jobW.id
      = some 1 := by
  decide

/-- Claim C8 amended: the worker increments the attempts counter before
invoking the handler, inside the same transaction as the handler and the
status update: a handler probing the counter observes the incremented value
and a completed run persists it, but a crash mid-handler rolls the whole
transaction back, so the increment does not persist and attempts stays at its
old value. -/
theorem attempts_increment_in_same_tx_as_handler (st : DbState) (job : JobRow)
    (j0 : JobRow) (maxAttempts : Nat) (h : findJob st job.id = some j0) :
    jobStatus (processJob st job (probeAttempts (j0.attempts + 1)) maxAttempts) job.id
      = some "completed" ∧
    jobAttempts (processJob st job (probeAttempts (j0.attempts + 1)) maxAttempts) job.id
      = some (j0.attempts + 1) ∧
    persistedAfterCrashedTx st (fun s => incrementAttempts s job.id) = st := by
  have hfind1 : findJob (incrementAttempts st job.id) job.id
      = some { j0 with attempts := j0.attempts + 1 } := by
    unfold incrementAttempts
    rw [findJob_updateJobs st job.id
      (fun j => { j with attempts := j.attempts + 1 }) (fun j => rfl), h]
    rfl
  have hattempts : jobAttempts (incrementAttempts st job.id) job.id
      = some (j0.attempts + 1) := by
    unfold jobAttempts
    rw [hfind1]
    rfl
  have hrun : probeAttempts (j0.attempts + 1) (incrementAttempts st job.id) job
      = HandlerOutcome.success (incrementAttempts st job.id) := by
    unfold probeAttempts
    rw [if_pos hattempts]
  have hsome : (findJob (incrementAttempts st job.id) job.id).isSome = true := by
    rw [hfind1]
    rfl
  refine ⟨?_, ?_, rfl⟩
  · simp only [processJob, hrun]
    exact jobStatus_markJobStatus _ job.id "completed" none hsome
  · simp only [processJob, hrun]
    rw [jobAttempts_markJobStatus]
    exact hattempts

theorem attempts_increment_in_same_tx_as_handler_witness :
    jobStatus (processJob stJobW jobW (probeAttempts 1) 8) jobW.id = some "completed" ∧
    jobAttempts (processJob stJobW jobW (probeAttempts 1) 8) jobW.id = some 1 ∧
    persistedAfterCrashedTx stJobW (fun s => incrementAttempts s jobW.id) = stJobW :=
  attempts_increment_in_same_tx_as_handler stJobW jobW jobW 8 (by decide)

theorem withdrawRequestKey_ne_empty (uid : Nat) (amount : Int) (wallet : String) :
    ¬ withdrawRequestKey uid amount wallet = "" := by
  intro h
  have hlen := congrArg String.length h
  have hcolon : (":" : String).length = 1 := rfl
  have hemp : ("" : String).length = 0 := rfl
  simp only [withdrawRequestKey, String.length_append, hcolon, hemp] at hlen
  omega

/-- Claim C2: running the idempotency-guarded withdraw flow again with the same
(endpoint, requestId, context), when the stored key row has status completed
with a stored (truthy) response, returns exactly that stored response and
leaves the state untouched: the run inserts zero additional ledger entries and
changes no balance, so the underlying balance effect stays applied exactly
once. -/
theorem withdraw_replay_returns_stored_response (st : DbState) (uid : Nat) (amount : Int)
    (wallet : String) (row : IdemRow) (resp : String)
    (hfind : findIdemRow st "/api/withdraw/request"
        (withdrawRequestKey uid amount wallet) "withdraw" = some row)
    (hstatus : row.status = "completed") (hresp : row.response = some resp)
    (hne : ¬ resp = "") :
    withdrawRequestTx st uid amount wallet = (st, Except.ok resp) ∧
    (withdrawRequestTx st uid amount wallet).1.ledger = st.ledger ∧
    (withdrawRequestTx st uid amount wallet).1.users = st.users := by
  have hval : ¬ (("/api/withdraw/request" : String) = ""
      ∨ withdrawRequestKey uid amount wallet = "") :=
    not_or.mpr ⟨by decide, withdrawRequestKey_ne_empty uid amount wallet⟩
  have hens : ensureIdempotencyKeyTx st
      ⟨some uid, "/api/withdraw/request", withdrawRequestKey uid amount wallet, "withdraw"⟩
      = Except.ok (st, row) := by
    unfold ensureIdempotencyKeyTx
    rw [if_neg hval]
    rw [hfind]
  have hcond : row.status = "completed" ∧ jsTruthy row.response = true := by
    refine ⟨hstatus, ?_⟩
    rw [hresp]
    simp [jsTruthy, hne]
  have hbody : withdrawRequestTxBody uid amount wallet st = Except.ok (st, resp) := by
    simp only [withdrawRequestTxBody, hens, bind, Except.bind]
    rw [if_pos hcond, hresp]
    rfl
  have htx : withdrawRequestTx st uid amount wallet = (st, Except.ok resp) := by
    unfold withdrawRequestTx withTransaction
    rw [hbody]
  exact ⟨htx, by rw [htx], by rw [htx]⟩

theorem withdraw_replay_returns_stored_response_witness :
    withdrawRequestTx stIdemW 1 400 "w1" = (stIdemW, Except.ok "stored-response") ∧
    (withdrawRequestTx stIdemW 1 400 "w1").1.ledger = stIdemW.ledger ∧
    (withdrawRequestTx stIdemW 1 400 "w1").1.users = stIdemW.users :=
  withdraw_replay_returns_stored_response stIdemW 1 400 "w1" idemRowW "stored-response"
    (by decide) (by decide) (by decide) (by decide)

theorem stepIdem_ensure_eq (st : DbState) (a : EnsureArgs) :
    stepIdem st (IdemOp.ensure a) = st ∨
    (findIdemRow st a.endpoint a.requestId a.context = none ∧
     stepIdem st (IdemOp.ensure a)
       = { st with idemKeys := st.idemKeys ++ [pendingIdemRow a] }) := by
  simp only [stepIdem]
  unfold ensureIdempotencyKeyTx
  by_cases hv : a.endpoint = "" ∨ a.requestId = ""
  · rw [if_pos hv]
    exact Or.inl rfl
  · rw [if_neg hv]
    cases hf : findIdemRow st a.endpoint a.requestId a.context with
    | some row => exact Or.inl rfl
    | none => exact Or.inr ⟨rfl, rfl⟩

theorem stepIdem_complete_eq (st : DbState) (a : CompleteArgs) :
    stepIdem st (IdemOp.complete a) = st ∨
    stepIdem st (IdemOp.complete a)
      = { st with idemKeys := st.idemKeys.map (completeUpd a) } := by
  simp only [stepIdem]
  unfold completeIdempotencyKeyTx
  by_cases hv : a.endpoint = "" ∨ a.requestId = ""
  · rw [if_pos hv]
    exact Or.inl rfl
  · rw [if_neg hv]
    exact Or.inr rfl

theorem completeUpd_matches (a : CompleteArgs) (row : IdemRow) (e r c : String) :
    idemKeyMatches (completeUpd a row) e r c = idemKeyMatches row e r c := by
  unfold completeUpd
  split <;> rfl

theorem completeUpd_endpoint (a : CompleteArgs) (row : IdemRow) :
    (completeUpd a row).endpoint = row.endpoint := by
  unfold completeUpd
  split <;> rfl

theorem completeUpd_requestId (a : CompleteArgs) (row : IdemRow) :
    (completeUpd a row).requestId = row.requestId := by
  unfold completeUpd
  split <;> rfl

theorem completeUpd_context (a : CompleteArgs) (row : IdemRow) :
    (completeUpd a row).context = row.context := by
  unfold completeUpd
  split <;> rfl

theorem stepIdem_preserves_unique (st : DbState) (op : IdemOp)
    (h : uniqueIdemKeys st) : uniqueIdemKeys (stepIdem st op) := by
  cases op with
  | ensure a =>
      rcases stepIdem_ensure_eq st a with heq | ⟨hfind, heq⟩
      · rw [heq]; exact h
      · rw [heq]
        unfold uniqueIdemKeys at h ⊢
        rw [List.pairwise_append]
        refine ⟨h, List.pairwise_singleton _ _, ?_⟩
        intro r1 hr1 r2 hr2
        simp only [List.mem_singleton] at hr2
        subst hr2
        have hno := List.find?_eq_none.mp hfind r1 hr1
        rintro ⟨h1, h2, h3⟩
        apply hno
        simp [pendingIdemRow] at h1 h2 h3
        simp [idemKeyMatches, h1, h2, h3]
  | complete a =>
      rcases stepIdem_complete_eq st a with heq | heq
      · rw [heq]; exact h
      · rw [heq]
        unfold uniqueIdemKeys at h ⊢
        rw [List.pairwise_map]
        refine h.imp ?_
        intro r1 r2 hr hcon
        apply hr
        rcases hcon with ⟨h1, h2, h3⟩
        rw [completeUpd_endpoint, completeUpd_endpoint] at h1
        rw [completeUpd_requestId, completeUpd_requestId] at h2
        rw [completeUpd_context, completeUpd_context] at h3
        exact ⟨h1, h2, h3⟩

theorem keyStatus_after_step (st : DbState) (op : IdemOp) (e r c : String)
    (hop : ∀ a, op = IdemOp.complete a → ¬ a.status = "pending")
    (s : String) (hs : keyStatus st e r c = some s) (hsp : ¬ s = "pending") :
    ∃ s2, keyStatus (stepIdem st op) e r c = some s2 ∧ ¬ s2 = "pending" := by
  obtain ⟨rowK, hrowK, hstat⟩ : ∃ rk, st.idemKeys.find? (fun x => idemKeyMatches x e r c)
      = some rk ∧ rk.status = s := by
    unfold keyStatus findIdemRow at hs
    cases hfk : st.idemKeys.find? (fun x => idemKeyMatches x e r c) with
    | none => rw [hfk] at hs; simp at hs
    | some rk => rw [hfk] at hs; exact ⟨rk, rfl, by simpa using hs⟩
  cases op with
  | ensure a =>
      rcases stepIdem_ensure_eq st a with heq | ⟨hfind, heq⟩
      · rw [heq]; exact ⟨s, hs, hsp⟩
      · rw [heq]
        refine ⟨s, ?_, hsp⟩
        unfold keyStatus findIdemRow
        dsimp only
        rw [List.find?_append, hrowK]
        simp [Option.or, hstat]
  | complete a =>
      have hnp := hop a rfl
      rcases stepIdem_complete_eq st a with heq | heq
      · rw [heq]; exact ⟨s, hs, hsp⟩
      · rw [heq]
        unfold keyStatus findIdemRow
        dsimp only
        rw [find?_map_of_pred_pres _ _ _ (fun row => completeUpd_matches a row e r c), hrowK]
        by_cases hm : idemKeyMatches rowK a.endpoint a.requestId a.context
        · exact ⟨a.status, by simp [Option.map, completeUpd, hm], hnp⟩
        · exact ⟨s, by simp [Option.map, completeUpd, hm, hstat], hsp⟩

theorem runIdemOps_unique (ops : List IdemOp) :
    ∀ st : DbState, uniqueIdemKeys st → uniqueIdemKeys (runIdemOps st ops) := by
  induction ops with
  | nil => exact fun st h => h
  | cons op ops ih =>
      intro st h
      exact ih (stepIdem st op) (stepIdem_preserves_unique st op h)

theorem runIdemOps_no_regress (ops : List IdemOp) :
    ∀ (st : DbState) (e r c : String),
      (∀ a, IdemOp.complete a ∈ ops → ¬ a.status = "pending") →
      ∀ s, keyStatus st e r c = some s → ¬ s = "pending" →
      ∃ s2, keyStatus (runIdemOps st ops) e r c = some s2 ∧ ¬ s2 = "pending" := by
  induction ops with
  | nil => exact fun st e r c _ s hs hsp => ⟨s, hs, hsp⟩
  | cons op ops ih =>
      intro st e r c hops s hs hsp
      obtain ⟨s1, hs1, hsp1⟩ := keyStatus_after_step st op e r c
        (fun a ha => hops a (by rw [ha]; exact List.mem_cons_self _ _)) s hs hsp
      exact ih (stepIdem st op) e r c
        (fun a ha => hops a (List.mem_cons_of_mem op ha)) s1 hs1 hsp1

/-- Claim C5 counterexample: completeIdempotencyKeyTx sets the row status to
whatever its status argument is; a single call passing status "pending" on a
key whose row is already completed returns that row to pending, so the
operations themselves do not enforce that a status never regresses. -/
theorem completeKey_can_regress_status :
    keyStatus stIdemC "/api/boost/completeAd" "r1" "" = some "completed" ∧
    keyStatus (stepIdem stIdemC (IdemOp.complete regressArgs)) "/api/boost/completeAd" "r1" ""
      = some "pending" := by
  decide

/-- Claim C5 amended: the idempotency operations keep at most one row per
natural key (ensureIdempotencyKeyTx only inserts when no row matches), and in
any sequence of ensureIdempotencyKeyTx / completeIdempotencyKeyTx calls in
which every complete call passes a status other than "pending" (every call
site in this repository passes the default "completed", and "failed" is the
only other status in use), a row that is completed or failed never returns to
pending. -/
theorem idem_unique_and_no_regression (st : DbState) (ops : List IdemOp) (e r c : String)
    (hops : ∀ a, IdemOp.complete a ∈ ops → ¬ a.status = "pending")
    (huniq : uniqueIdemKeys st)
    (hterm : keyStatus st e r c = some "completed" ∨ keyStatus st e r c = some "failed") :
    uniqueIdemKeys (runIdemOps st ops) ∧
    ¬ keyStatus (runIdemOps st ops) e r c = some "pending" := by
  refine ⟨runIdemOps_unique ops st huniq, ?_⟩
  have hstart : ∃ s, keyStatus st e r c = some s ∧ ¬ s = "pending" := by
    rcases hterm with h | h
    · exact ⟨"completed", h, by decide⟩
    · exact ⟨"failed", h, by decide⟩
  obtain ⟨s, hs, hsp⟩ := hstart
  obtain ⟨s2, hs2, hsp2⟩ := runIdemOps_no_regress ops st e r c hops s hs hsp
  rw [hs2]
  intro hcon
  exact hsp2 (by injection hcon)

theorem idem_unique_and_no_regression_witness :
    uniqueIdemKeys (runIdemOps stIdemC idemOpsW) ∧
    ¬ keyStatus (runIdemOps stIdemC idemOpsW) "/api/boost/completeAd" "r1" ""
      = some "pending" :=
  idem_unique_and_no_regression stIdemC idemOpsW "/api/boost/completeAd" "r1" ""
    (by
      intro a ha
      simp only [idemOpsW, List.mem_cons, List.not_mem_nil, or_false] at ha
      rcases ha with h | h | h
      · exact absurd h (by simp)
      · rw [show a = ⟨"/api/boost/completeAd", "r1", "", some "resp2", "failed"⟩ from
          by injection h]
        decide
      · exact absurd h (by simp))
    (by simp [uniqueIdemKeys, stIdemC])
    (Or.inl (by decide))
end AirdropBot
